import Mathlib

/-!
# TerminalRewind — shallow embedding and verification

A shallow embedding of the core of `terminalrewind.py` (the command ledger,
file-change tracker and rollback engine), together with theorems settling the
frozen claims about the program.

Modelling conventions:
* SQLite tables become Lean lists of structure rows, kept in insertion
  (rowid) order; `AUTOINCREMENT` becomes an explicit `nextCommandId` counter.
* The filesystem is an explicit value (`FS`): an association list from path to
  file content, plus a list of paths on which writes and deletes fail with a
  permission error (modelling `PermissionError`/`IOError`).
* Python `None` becomes `Option.none`; Python string truthiness
  (`if session_id:` is false for both `None` and `""`) is modelled by
  `strOptTruthy`.
* SQLite three-valued comparison semantics (`NULL = 0` and `NULL != 0` are
  both not-true) is modelled explicitly in the counter and filter functions.
* The FTS5 `MATCH` operator is abstracted as a match-predicate parameter
  `matchFn : String → String → String → Bool` (query, command text, indexed
  output); the `commands_fts` shadow table always mirrors the `commands` rows
  (both inserts happen in `record_command` with the same data), so the
  `JOIN ... ON c.id = fts.rowid` is modelled by reading the fields off the
  command row itself.
* Timestamps are ISO-format strings compared lexicographically, exactly as
  SQLite compares the TEXT column; `ORDER BY timestamp DESC` is modelled by a
  deterministic descending insertion sort on the timestamp.
-/

namespace TerminalRewind

/-- Python string-option truthiness: `if x:` on an optional string is true
exactly when the value is present and non-empty. -/
def strOptTruthy : Option String → Bool
  | some s => s ≠ ""
  | none => false

/-! ## Filesystem model -/

/-- Filesystem state: existing files (path, content) plus the set of paths on
which writes/deletes raise a permission error. -/
structure FS where
  files : List (String × String)
  denied : List String
deriving DecidableEq

/-- `Path(p).exists()`. -/
def FS.exists? (fs : FS) (p : String) : Bool :=
  (fs.files.lookup p).isSome

/-- Write (create or overwrite) file `p` with content `c`. -/
def FS.write (fs : FS) (p c : String) : FS :=
  { fs with files := (p, c) :: fs.files.filter (fun kv => kv.1 ≠ p) }

/-- `Path(p).unlink()`: raises `FileNotFoundError` when the path does not
exist, `PermissionError` when the path is write-denied; otherwise removes the
file. The raised exception is modelled as its message string. -/
def FS.unlink (fs : FS) (p : String) : Except String FS :=
  if ¬ fs.exists? p then .error ("No such file or directory: " ++ p)
  else if p ∈ fs.denied then .error ("Permission denied: " ++ p)
  else .ok { fs with files := fs.files.filter (fun kv => kv.1 ≠ p) }

/-! ## Data model (§ DATABASE SCHEMA AND OPERATIONS) -/

/-- `file_changes.change_type`: 'created', 'modified', 'deleted'. -/
inductive ChangeKind where
  | created
  | modified
  | deleted
deriving DecidableEq

/-- A row of the `commands` table. -/
structure CommandRow where
  id : Nat
  sessionId : String
  timestamp : String
  command : String
  cwd : String
  exitCode : Option Int
  output : Option String
  errorOutput : Option String
  durationMs : Option Int
  pform : String
  shell : String
  user : String
  hostname : String
  tags : Option String
  notes : Option String
deriving DecidableEq

/-- A row of the `file_changes` table. -/
structure FileChange where
  id : Nat
  commandId : Nat
  filePath : String
  changeType : ChangeKind
  oldHash : Option String
  newHash : Option String
  oldSize : Option Nat
  newSize : Option Nat
  backupPath : Option String
deriving DecidableEq

/-- A row of the `sessions` table. -/
structure Session where
  id : String
  name : Option String
  description : Option String
  startedAt : String
  endedAt : Option String
  commandCount : Nat
  successCount : Nat
  errorCount : Nat
  cwdStart : Option String
  agentName : Option String
  metadata : Option String
deriving DecidableEq

/-- The whole store: the three tables in rowid order plus the AUTOINCREMENT
counter for `commands.id`. The FTS index always mirrors `commands`
(`record_command` inserts into both in the same transaction), so it needs no
separate representation. -/
structure DB where
  commands : List CommandRow
  fileChanges : List FileChange
  sessions : List Session
  nextCommandId : Nat
deriving DecidableEq

/-! ## Ledger store operations -/

/-- The session-counter part of `record_command`'s
`UPDATE sessions SET ...` statement.  SQLite semantics: when `exit_code` is
NULL both `CASE WHEN ? = 0` and `CASE WHEN ? != 0` take the ELSE 0 branch. -/
def updateSessionCounters (exitCode : Option Int) (s : Session) : Session :=
  { s with
    commandCount := s.commandCount + 1
    successCount := s.successCount +
      (match exitCode with
       | some e => if e = 0 then 1 else 0
       | none => 0)
    errorCount := s.errorCount +
      (match exitCode with
       | some e => if e ≠ 0 then 1 else 0
       | none => 0) }

/-- `TerminalRewindDB.record_command`: insert the command row (and its FTS
mirror), update the counters of the session row with the given id (the SQL
UPDATE matches only existing rows), return the new rowid.  Environment reads
(the timestamp, `platform.system()`, `$SHELL`, `$USER`, hostname) are passed
in as arguments; `tags` is passed already JSON-serialized, as stored. -/
def record_command (db : DB) (sessionId command cwd timestamp : String)
    (exitCode : Option Int) (output errorOutput : Option String)
    (durationMs : Option Int) (pform shell user hostname : String)
    (tags notes : Option String) : Nat × DB :=
  let cmdId := db.nextCommandId
  let row : CommandRow :=
    { id := cmdId, sessionId := sessionId, timestamp := timestamp
      command := command, cwd := cwd, exitCode := exitCode, output := output
      errorOutput := errorOutput, durationMs := durationMs, pform := pform
      shell := shell, user := user, hostname := hostname, tags := tags
      notes := notes }
  (cmdId,
   { db with
     commands := db.commands ++ [row]
     sessions := db.sessions.map
       (fun s => if s.id = sessionId then updateSessionCounters exitCode s else s)
     nextCommandId := cmdId + 1 })

/-- `TerminalRewindDB.record_file_change`: append one row, never mutate
existing rows. -/
def record_file_change (db : DB) (fc : FileChange) : DB :=
  { db with fileChanges := db.fileChanges ++ [fc] }

/-- `TerminalRewindDB.start_session`: `INSERT OR REPLACE INTO sessions`; the
conflicting row (same primary key) is deleted and the new row inserted, so
every column not named in the INSERT takes its schema default: `ended_at`
NULL and all three counters 0. -/
def start_session (db : DB) (sessionId : String)
    (name description agentName metadata : Option String)
    (timestamp cwd : String) : DB :=
  let row : Session :=
    { id := sessionId, name := name, description := description
      startedAt := timestamp, endedAt := none
      commandCount := 0, successCount := 0, errorCount := 0
      cwdStart := some cwd, agentName := agentName, metadata := metadata }
  { db with sessions := db.sessions.filter (fun s => s.id ≠ sessionId) ++ [row] }

/-- `TerminalRewindDB.end_session`: set `ended_at` on the matching row
(no-op when the id does not exist). -/
def end_session (db : DB) (sessionId timestamp : String) : DB :=
  { db with
    sessions := db.sessions.map
      (fun s => if s.id = sessionId then { s with endedAt := some timestamp } else s) }

/-- `TerminalRewindDB.get_session`: `SELECT * FROM sessions WHERE id = ?`,
first row or None. -/
def get_session (db : DB) (sessionId : String) : Option Session :=
  db.sessions.find? (fun s => s.id = sessionId)

/-- `TerminalRewindDB.get_file_changes`: all rows with the given command id,
in rowid order. -/
def get_file_changes (db : DB) (commandId : Nat) : List FileChange :=
  db.fileChanges.filter (fun fc => fc.commandId = commandId)

/-- Lexicographic order on character lists: SQLite's binary collation for
TEXT values (codepoint order, a prefix sorts first). -/
def charListLe : List Char → List Char → Bool
  | [], _ => true
  | _ :: _, [] => false
  | a :: as, b :: bs => if a = b then charListLe as bs else decide (a < b)

/-- SQLite TEXT `<=` on two strings (ISO timestamps compare
chronologically under it). -/
def strLe (a b : String) : Bool :=
  charListLe a.data b.data

/-- Insert a command row into a list that is already sorted by descending
timestamp (ties keep insertion order). -/
def insertByTsDesc (c : CommandRow) : List CommandRow → List CommandRow
  | [] => [c]
  | d :: ds => if strLe c.timestamp d.timestamp then d :: insertByTsDesc c ds
               else c :: d :: ds

/-- `ORDER BY timestamp DESC`, as a deterministic insertion sort. -/
def sortByTsDesc : List CommandRow → List CommandRow
  | [] => []
  | c :: cs => insertByTsDesc c (sortByTsDesc cs)

/-- The `exit_code != 0` SQL predicate: not-true on NULL. -/
def exitCodeNonZero (c : CommandRow) : Bool :=
  match c.exitCode with
  | some e => e ≠ 0
  | none => false

/-- `TerminalRewindDB.get_commands`.  When `search` is truthy the query is
rebuilt from scratch against the FTS index: the `since` and `with_errors`
clauses (and their parameters) are discarded, and only the `session_id`
filter is re-applied; otherwise the three optional filters compose.  Both
branches end with `ORDER BY timestamp DESC LIMIT ?`.  `matchFn` stands for
the FTS5 MATCH operator applied to the indexed `command` and `output or ""`
columns. -/
def get_commands (db : DB) (sessionId : Option String) (limit : Nat)
    (since : Option String) (withErrors : Bool) (search : Option String)
    (matchFn : String → String → String → Bool) : List CommandRow :=
  if strOptTruthy search then
    let q := search.getD ""
    let rows := db.commands.filter (fun c =>
      matchFn q c.command (c.output.getD "") &&
      (!strOptTruthy sessionId || c.sessionId = sessionId.getD ""))
    (sortByTsDesc rows).take limit
  else
    let rows := db.commands.filter (fun c =>
      (!strOptTruthy sessionId || c.sessionId = sessionId.getD "") &&
      (!strOptTruthy since || strLe (since.getD "") c.timestamp) &&
      (!withErrors || exitCodeNonZero c))
    (sortByTsDesc rows).take limit

/-- Round a rational to one decimal place (`round(x, 1)`; the source rounds
a binary float, which this abstracts as exact rational arithmetic). -/
def roundTo1 (x : ℚ) : ℚ :=
  (round (10 * x) : ℤ) / 10

/-- The fields of `TerminalRewindDB.get_stats` that derive from table
contents (the database-file path and size are environment facts outside the
store and are not modelled). -/
structure Stats where
  totalCommands : Nat
  successfulCommands : Nat
  failedCommands : Nat
  successRate : ℚ
  totalSessions : Nat
  totalFileChanges : Nat
deriving DecidableEq

/-- `TerminalRewindDB.get_stats`: the four COUNT queries plus the success
rate, which is `round(successful / total * 100, 1)` when `total > 0` and the
integer `0` otherwise. -/
def get_stats (db : DB) : Stats :=
  let total := db.commands.length
  let succ := (db.commands.filter (fun c => c.exitCode = some 0)).length
  let failed := (db.commands.filter exitCodeNonZero).length
  { totalCommands := total
    successfulCommands := succ
    failedCommands := failed
    successRate := if total > 0 then roundTo1 ((succ : ℚ) / (total : ℚ) * 100) else 0
    totalSessions := db.sessions.length
    totalFileChanges := db.fileChanges.length }

/-! ## File change tracker (`FileTracker`) -/

/-- One entry of a snapshot: (relative or absolute path, (hash, size)); the
hash and size are `None` for unreadable files. -/
abbrev Snapshot := List (String × (Option String × Option Nat))

/-- A change descriptor emitted by `FileTracker.detect_changes`.  Keys absent
from the Python dict are `none` here (`record_file_change` reads them with
`.get`, which yields `None` either way). -/
structure Change where
  path : String
  type : ChangeKind
  oldHash : Option String
  newHash : Option String
  oldSize : Option Nat
  newSize : Option Nat
deriving DecidableEq

/-- `directory / rel_path` (POSIX join, as `str(Path(directory) / rel)`). -/
def joinPath (dir rel : String) : String :=
  dir ++ "/" ++ rel

/-- The first pass of the directory branch of `FileTracker.detect_changes`,
applied to one baseline entry: emit `modified` when the relative path is in
the live snapshot with a different digest (recording both size values),
`deleted` when the relative path is absent from the live snapshot, nothing
when present with an equal digest. -/
def dirBaselineChange (current : Snapshot) (dir : String)
    (e : String × (Option String × Option Nat)) : Option Change :=
  match current.lookup e.1 with
  | some (newH, newS) =>
      if e.2.1 ≠ newH then
        some { path := joinPath dir e.1, type := .modified
               oldHash := e.2.1, newHash := newH
               oldSize := e.2.2, newSize := newS }
      else none
  | none =>
      some { path := joinPath dir e.1, type := .deleted
             oldHash := e.2.1, newHash := none
             oldSize := e.2.2, newSize := none }

/-- The second pass of the directory branch of `FileTracker.detect_changes`,
applied to one live entry: emit `created` when the relative path is not in
the baseline. -/
def dirCreatedChange (watched : Snapshot) (dir : String)
    (e : String × (Option String × Option Nat)) : Option Change :=
  if (watched.lookup e.1).isSome then none
  else some { path := joinPath dir e.1, type := .created
              oldHash := none, newHash := e.2.1
              oldSize := none, newSize := e.2.2 }

/-- The directory branch of `FileTracker.detect_changes`: `watched` is the
baseline snapshot (`self._watched_files`), `current` the live snapshot of the
same directory.  First pass over the baseline emits `modified` and `deleted`
entries; second pass over the live snapshot emits `created` entries for
paths absent from the baseline. -/
def detect_changes_dir (watched current : Snapshot) (dir : String) : List Change :=
  watched.filterMap (dirBaselineChange current dir) ++
    current.filterMap (dirCreatedChange watched dir)

/-- The individual-file branch of `FileTracker.detect_changes` (no directory
supplied): each watched absolute path is re-hashed live (`liveHash`,
`liveSize` stand for `get_file_hash`/`get_file_size` on the current
filesystem). -/
def detect_changes_files (watched : Snapshot)
    (liveHash : String → Option String) (liveSize : String → Option Nat) :
    List Change :=
  watched.filterMap (fun e =>
    let newH := liveHash e.1
    let newS := liveSize e.1
    match e.2.1, newH with
    | none, some _ =>
        some { path := e.1, type := .created, oldHash := none, newHash := newH
               oldSize := none, newSize := newS }
    | some _, none =>
        some { path := e.1, type := .deleted, oldHash := e.2.1, newHash := none
               oldSize := e.2.2, newSize := none }
    | _, _ =>
        if e.2.1 ≠ newH then
          some { path := e.1, type := .modified, oldHash := e.2.1, newHash := newH
                 oldSize := e.2.2, newSize := newS }
        else none)

/-- `FileTracker.restore_file`: False when the backup does not exist; copies
the backup's bytes over the destination (creating parent directories),
returning False on an IO/permission error (a read-denied backup or a
write-denied destination) and True otherwise. -/
def restore_file (fs : FS) (backupPath originalPath : String) :
    Bool × FS :=
  match fs.files.lookup backupPath with
  | none => (false, fs)
  | some content =>
      if backupPath ∈ fs.denied ∨ originalPath ∈ fs.denied then (false, fs)
      else (true, fs.write originalPath content)

/-! ## Rollback engine (`RollbackManager`) -/

/-- Status of one per-file rollback action. -/
inductive ActionStatus where
  | pending
  | success
  | failed
deriving DecidableEq

/-- One entry of the `actions` list returned by `rollback_command`. -/
structure RollbackAction where
  file : String
  type : ChangeKind
  status : ActionStatus
  action : Option String
  backup : Option String
  error : Option String
deriving DecidableEq

/-- The result dictionary of `rollback_command` (`dryRun` and `commandId` are
absent from the early-refusal dictionary, hence optional). -/
structure RollbackResult where
  success : Bool
  dryRun : Option Bool
  commandId : Option Nat
  error : Option String
  actions : List RollbackAction
deriving DecidableEq

/-- A record that `can_rollback` must check a backup for: kind `modified` or
`deleted`. -/
def needsBackup (fc : FileChange) : Bool :=
  fc.changeType = .modified ∨ fc.changeType = .deleted

/-- A record that makes the command ineligible for rollback on filesystem
`fs`: it needs a backup and either no backup pointer is recorded
(`not fc.get('backup_path')`, false also for an empty string) or the
pointed-to backup file does not exist on disk. -/
def backupBad (fs : FS) (fc : FileChange) : Bool :=
  needsBackup fc &&
    (!strOptTruthy fc.backupPath || !fs.exists? (fc.backupPath.getD ""))

/-- The verification loop of `RollbackManager.can_rollback`: first offending
record wins, returning its refusal reason. -/
def canRollbackLoop (fs : FS) : List FileChange → Option String
  | [] => none
  | fc :: rest =>
      if needsBackup fc then
        if !strOptTruthy fc.backupPath then
          some ("No backup available for " ++ fc.filePath)
        else if !fs.exists? (fc.backupPath.getD "") then
          some ("Backup file missing for " ++ fc.filePath)
        else canRollbackLoop fs rest
      else canRollbackLoop fs rest

/-- `RollbackManager.can_rollback`. -/
def can_rollback (db : DB) (fs : FS) (commandId : Nat) : Bool × String :=
  let fcs := get_file_changes db commandId
  if fcs.isEmpty then (false, "No file changes recorded for this command")
  else
    match canRollbackLoop fs fcs with
    | some reason => (false, reason)
    | none => (true, "Rollback is possible")

/-- One iteration of `rollback_command`'s action loop: build the action
dictionary for one file-change record and, in apply mode, perform it.
`created` → delete the live file (an exception's message lands in the
action's `error` field); `modified`/`deleted` → restore the backup over the
live path (`restore_file` returns only a boolean, so no error message is
recorded on failure).  `can_rollback` has already guaranteed a backup pointer
for the restore kinds, so the `getD ""` default is never exercised. -/
def rollbackStep (fs : FS) (dryRun : Bool) (fc : FileChange) :
    RollbackAction × FS :=
  match fc.changeType with
  | .created =>
      let a : RollbackAction :=
        { file := fc.filePath, type := fc.changeType, status := .pending
          action := some "delete", backup := none, error := none }
      if dryRun then (a, fs)
      else
        match fs.unlink fc.filePath with
        | .ok fs2 => ({ a with status := .success }, fs2)
        | .error e => ({ a with status := .failed, error := some e }, fs)
  | _ =>
      let a : RollbackAction :=
        { file := fc.filePath, type := fc.changeType, status := .pending
          action := some "restore", backup := fc.backupPath, error := none }
      if dryRun then (a, fs)
      else
        let r := restore_file fs (fc.backupPath.getD "") fc.filePath
        ({ a with status := if r.1 then .success else .failed }, r.2)

/-- The action loop of `rollback_command`: actions are performed left to
right, each against the filesystem state left by its predecessors; a failure
never stops the loop. -/
def rollbackExec (fs : FS) (dryRun : Bool) :
    List FileChange → List RollbackAction × FS
  | [] => ([], fs)
  | fc :: rest =>
      let s := rollbackStep fs dryRun fc
      let r := rollbackExec s.2 dryRun rest
      (s.1 :: r.1, r.2)

/-- `RollbackManager.rollback_command`: refuse (without touching the
filesystem) when `can_rollback` says no; otherwise run the action loop and
report overall success iff no action has status 'failed'. -/
def rollback_command (db : DB) (fs : FS) (commandId : Nat) (dryRun : Bool) :
    RollbackResult × FS :=
  let chk := can_rollback db fs commandId
  if !chk.1 then
    ({ success := false, dryRun := none, commandId := none
       error := some chk.2, actions := [] }, fs)
  else
    let fcs := get_file_changes db commandId
    let r := rollbackExec fs dryRun fcs
    ({ success := r.1.all (fun a => a.status ≠ .failed)
       dryRun := some dryRun, commandId := some commandId
       error := none, actions := r.1 }, r.2)

/-! ## Concrete fixtures

Small concrete stores and filesystems on which the theorems below are
instantiated. -/

/-- Build a file-change row with only the fields rollback inspects. -/
def mkFC (id cid : Nat) (p : String) (k : ChangeKind) (bp : Option String) :
    FileChange :=
  { id := id, commandId := cid, filePath := p, changeType := k
    oldHash := none, newHash := none, oldSize := none, newSize := none
    backupPath := bp }

/-- Build a command row with fixed environment fields. -/
def mkCmd (id : Nat) (sid ts cmd : String) (ec : Option Int)
    (out : Option String) : CommandRow :=
  { id := id, sessionId := sid, timestamp := ts, command := cmd, cwd := "/w"
    exitCode := ec, output := out, errorOutput := none, durationMs := none
    pform := "Linux", shell := "/bin/sh", user := "u", hostname := "h"
    tags := none, notes := none }

/-- Build a session row. -/
def mkSession (sid : String) (cc sc ec : Nat) : Session :=
  { id := sid, name := none, description := none, startedAt := "t0"
    endedAt := none, commandCount := cc, successCount := sc, errorCount := ec
    cwdStart := some "/w", agentName := none, metadata := none }

/-- Fixture filesystem: two live files, one good backup, one backup whose
destination is write-denied. -/
def exFS : FS :=
  { files := [("w/a.txt", "aa"), ("w/b.txt", "v2"), ("bk/b1", "v1"),
              ("bk/e1", "e1"), ("w/e.txt", "e2")]
    denied := ["w/e.txt"] }

/-- Fixture store: one file-change set per rollback scenario (command 1:
rollback-able creation; 2: rollback-able modification; 3: modification with
no backup pointer; 4: no records at all; 5: modification whose backup file is
gone; 6: modification whose restore destination is write-denied; 7: creation
whose live file is already absent; 8: a restorable modification followed by
one whose restore destination is write-denied, so the first action succeeds
and the second fails). -/
def exDB : DB :=
  { commands := []
    fileChanges :=
      [ mkFC 1 1 "w/a.txt" .created none
      , mkFC 2 2 "w/b.txt" .modified (some "bk/b1")
      , mkFC 3 3 "w/c.txt" .modified none
      , mkFC 4 5 "w/d.txt" .modified (some "bk/d1")
      , mkFC 5 6 "w/e.txt" .modified (some "bk/e1")
      , mkFC 6 7 "w/gone.txt" .created none
      , mkFC 7 8 "w/b.txt" .modified (some "bk/b1")
      , mkFC 8 8 "w/e.txt" .modified (some "bk/e1") ]
    sessions := []
    nextCommandId := 1 }

/-- Split a character list into its space-separated tokens (`acc` holds the
reversed characters of the token being read). -/
def spaceTokens : List Char → List Char → List (List Char)
  | [], acc => [acc.reverse]
  | c :: cs, acc =>
      if c = ' ' then acc.reverse :: spaceTokens cs []
      else spaceTokens cs (c :: acc)

/-- A simple concrete instance of the FTS5 MATCH operator: a single-term
query matches when the term occurs as a whitespace-separated token of the
command text or of the indexed output. -/
def ftsTermMatch (q cmd out : String) : Bool :=
  (spaceTokens cmd.data []).contains q.data ||
    (spaceTokens out.data []).contains q.data

/-- Fixture ledger for the search claims: two commands in session "s1" and
one in session "s2". -/
def searchDB : DB :=
  { commands :=
      [ mkCmd 1 "s1" "2026-01-01T10:00:00" "build project" (some 0) (some "ok")
      , mkCmd 2 "s1" "2026-01-01T11:00:00" "test project" (some 1) none
      , mkCmd 3 "s2" "2026-01-01T12:00:00" "deploy docs" (some 0) none ]
    fileChanges := []
    sessions := []
    nextCommandId := 4 }

/-- Fixture ledger for the session-counter claims: one fresh session. -/
def sessDB : DB :=
  { commands := [], fileChanges := []
    sessions := [mkSession "s" 0 0 0]
    nextCommandId := 1 }

/-- Record one command with the fixture environment fields, keeping only the
resulting store (the harness used by the counter theorems). -/
def recordOne (db : DB) (sid : String) (ec : Option Int) : DB :=
  (record_command db sid "cmd" "/w" "ts" ec none none none
    "Linux" "/bin/sh" "u" "h" none none).2

/-- Record a list of commands with the given exit codes into one session. -/
def recordMany (db : DB) (sid : String) (ecs : List (Option Int)) : DB :=
  ecs.foldl (fun d e => recordOne d sid e) db

/-- The exit codes counted by `success_count` (SQLite `CASE WHEN ? = 0`). -/
def isSuccessCode (e : Option Int) : Bool :=
  e = some 0

/-- The exit codes counted by `error_count` (SQLite `CASE WHEN ? != 0`,
not-true on NULL). -/
def isErrorCode (e : Option Int) : Bool :=
  match e with
  | some x => x ≠ 0
  | none => false

/-- The (path, kind) signature of a change descriptor. -/
def pathKind (ch : Change) : String × ChangeKind :=
  (ch.path, ch.type)

/-- Fixture ledger whose session has already accumulated counters
(2 commands, 1 success, 1 error). -/
def sess7DB : DB :=
  { commands := [], fileChanges := []
    sessions := [mkSession "s" 2 1 1]
    nextCommandId := 3 }

/-- Fixture ledger for the statistics claim: exits 0, 1, NULL, 0. -/
def statsDB : DB :=
  { commands :=
      [ mkCmd 1 "s" "t1" "a" (some 0) none
      , mkCmd 2 "s" "t2" "b" (some 1) none
      , mkCmd 3 "s" "t3" "c" none none
      , mkCmd 4 "s" "t4" "d" (some 0) none ]
    fileChanges := []
    sessions := []
    nextCommandId := 5 }

/-! ## Helper lemmas: rollback -/

theorem rollbackStep_dry (fs : FS) (fc : FileChange) :
    (rollbackStep fs true fc).2 = fs ∧
    (rollbackStep fs true fc).1.status = ActionStatus.pending := by
  cases h : fc.changeType <;> simp [rollbackStep, h]

theorem rollbackExec_dry (l : List FileChange) (fs : FS) :
    (rollbackExec fs true l).2 = fs ∧
    ∀ a ∈ (rollbackExec fs true l).1, a.status = ActionStatus.pending := by
  induction l generalizing fs with
  | nil => simp [rollbackExec]
  | cons fc rest ih =>
      obtain ⟨h1, h2⟩ := rollbackStep_dry fs fc
      obtain ⟨ih1, ih2⟩ := ih (rollbackStep fs true fc).2
      refine ⟨by simpa [rollbackExec, h1] using ih1, ?_⟩
      intro a ha
      simp only [rollbackExec, List.mem_cons] at ha
      rcases ha with h | h
      · rw [h]; exact h2
      · exact ih2 a h

theorem rollback_command_refused (db : DB) (fs : FS) (cid : Nat) (dryRun : Bool)
    (h : (can_rollback db fs cid).1 = false) :
    rollback_command db fs cid dryRun =
      ({ success := false, dryRun := none, commandId := none
         error := some (can_rollback db fs cid).2, actions := [] }, fs) := by
  simp [rollback_command, h]

theorem canRollbackLoop_none_iff (fs : FS) (l : List FileChange) :
    canRollbackLoop fs l = none ↔ ∀ fc ∈ l, backupBad fs fc = false := by
  induction l with
  | nil => simp [canRollbackLoop]
  | cons fc rest ih =>
      by_cases hn : needsBackup fc = true
      · by_cases ht : strOptTruthy fc.backupPath = true
        · by_cases he : fs.exists? (fc.backupPath.getD "") = true
          · simp [canRollbackLoop, hn, ht, he, ih, backupBad]
          · simp [canRollbackLoop, hn, ht, he, backupBad]
        · simp [canRollbackLoop, hn, ht, backupBad]
      · simp [canRollbackLoop, hn, backupBad, ih]

theorem canRollbackLoop_some (fs : FS) (l : List FileChange) (r : String)
    (h : canRollbackLoop fs l = some r) :
    ∃ fc ∈ l, backupBad fs fc = true ∧
      (r = "No backup available for " ++ fc.filePath ∨
       r = "Backup file missing for " ++ fc.filePath) := by
  induction l with
  | nil => simp [canRollbackLoop] at h
  | cons fc rest ih =>
      by_cases hn : needsBackup fc = true
      · by_cases ht : strOptTruthy fc.backupPath = true
        · by_cases he : fs.exists? (fc.backupPath.getD "") = true
          · simp only [canRollbackLoop, hn, ht, he] at h
            simp only [if_true, Bool.not_true, if_false] at h
            obtain ⟨fc', hmem, hbad, hr⟩ := ih h
            exact ⟨fc', List.mem_cons_of_mem _ hmem, hbad, hr⟩
          · simp only [canRollbackLoop, hn, ht, he] at h
            simp only [if_true, Bool.not_true, Bool.not_false, if_false] at h
            refine ⟨fc, List.mem_cons_self .., ?_, Or.inr ?_⟩
            · simp [backupBad, hn, he]
            · exact (Option.some_injective _ h).symm
        · simp only [canRollbackLoop, hn, ht] at h
          simp only [if_true, Bool.not_false] at h
          refine ⟨fc, List.mem_cons_self .., ?_, Or.inl ?_⟩
          · simp [backupBad, hn, ht]
          · exact (Option.some_injective _ h).symm
      · simp only [canRollbackLoop, hn, if_false] at h
        obtain ⟨fc', hmem, hbad, hr⟩ := ih h
        exact ⟨fc', List.mem_cons_of_mem _ hmem, hbad, hr⟩

/-! ## C1 -/

/-- C1: for every store, filesystem state and command id, a dry-run rollback
leaves the filesystem untouched (also on the refusal path) and every action
in the returned plan has status 'pending'. -/
theorem rollback_dry_run_pure (db : DB) (fs : FS) (cid : Nat) :
    (rollback_command db fs cid true).2 = fs ∧
    ∀ a ∈ (rollback_command db fs cid true).1.actions,
      a.status = ActionStatus.pending := by
  by_cases h : (can_rollback db fs cid).1 = true
  · obtain ⟨h1, h2⟩ := rollbackExec_dry (get_file_changes db cid) fs
    constructor
    · simpa [rollback_command, h] using h1
    · intro a ha
      apply h2
      simpa [rollback_command, h] using ha
  · rw [rollback_command_refused db fs cid true (by simpa using h)]
    simp

/-- C1 witness: dry-running the rollback of the fixture creation leaves the
fixture filesystem intact and plans a single pending delete. -/
theorem rollback_dry_run_pure_witness :
    (rollback_command exDB exFS 1 true).2 = exFS ∧
    (rollback_command exDB exFS 1 true).1.actions.map RollbackAction.status =
      [ActionStatus.pending] := by
  have h := rollback_dry_run_pure exDB exFS 1
  exact ⟨h.1, by decide⟩

/-! ## C2 -/

/-- C2: a command with no file-change records is refused with the
'no file changes recorded' reason and an empty action list; a record of kind
'modified' or 'deleted' with a missing backup pointer or a missing backup
file makes `can_rollback` false with a reason naming that record's path,
and `rollback_command` then refuses without touching the filesystem;
a command whose records are all of kind 'created' is never refused for a
backup. -/
theorem rollback_eligibility (db : DB) (fs : FS) (cid : Nat) (dryRun : Bool) :
    (get_file_changes db cid = [] →
      rollback_command db fs cid dryRun =
        ({ success := false, dryRun := none, commandId := none
           error := some "No file changes recorded for this command"
           actions := [] }, fs)) ∧
    ((∃ fc ∈ get_file_changes db cid, backupBad fs fc = true) →
      (can_rollback db fs cid).1 = false ∧
      (∃ fc ∈ get_file_changes db cid, backupBad fs fc = true ∧
        ((can_rollback db fs cid).2 = "No backup available for " ++ fc.filePath ∨
         (can_rollback db fs cid).2 = "Backup file missing for " ++ fc.filePath)) ∧
      rollback_command db fs cid dryRun =
        ({ success := false, dryRun := none, commandId := none
           error := some (can_rollback db fs cid).2, actions := [] }, fs)) ∧
    (get_file_changes db cid ≠ [] →
      (∀ fc ∈ get_file_changes db cid, fc.changeType = ChangeKind.created) →
      can_rollback db fs cid = (true, "Rollback is possible")) := by
  refine ⟨?_, ?_, ?_⟩
  · intro h
    have hcan : can_rollback db fs cid =
        (false, "No file changes recorded for this command") := by
      simp [can_rollback, h]
    rw [rollback_command_refused db fs cid dryRun (by rw [hcan])]
    rw [hcan]
  · intro hbad
    have hloop : ∃ r, canRollbackLoop fs (get_file_changes db cid) = some r := by
      cases hl : canRollbackLoop fs (get_file_changes db cid) with
      | none =>
          obtain ⟨fc, hmem, hb⟩ := hbad
          have := ((canRollbackLoop_none_iff fs _).mp hl) fc hmem
          rw [hb] at this
          exact absurd this (by simp)
      | some r => exact ⟨r, rfl⟩
    obtain ⟨r, hl⟩ := hloop
    have hne : (get_file_changes db cid).isEmpty = false := by
      obtain ⟨fc, hmem, _⟩ := hbad
      cases hfcs : get_file_changes db cid with
      | nil => rw [hfcs] at hmem; simp at hmem
      | cons a l => simp
    have hcan : can_rollback db fs cid = (false, r) := by
      simp [can_rollback, hne, hl]
    refine ⟨by rw [hcan], ?_, ?_⟩
    · obtain ⟨fc, hmem, hb, hr⟩ := canRollbackLoop_some fs _ r hl
      exact ⟨fc, hmem, hb, by rw [hcan]; exact hr⟩
    · exact rollback_command_refused db fs cid dryRun (by rw [hcan])
  · intro hne hall
    have hloop : canRollbackLoop fs (get_file_changes db cid) = none := by
      rw [canRollbackLoop_none_iff]
      intro fc hmem
      simp [backupBad, needsBackup, hall fc hmem]
    have : (get_file_changes db cid).isEmpty = false := by
      cases hfcs : get_file_changes db cid with
      | nil => exact absurd hfcs hne
      | cons a l => simp
    simp [can_rollback, this, hloop]

/-- C2 witness: on the fixtures, command 4 (no records) is refused with the
no-changes reason; command 3 (modified record without a backup pointer)
makes `can_rollback` false naming `w/c.txt`; command 1 (a single created
record) is eligible with no backup at all. -/
theorem rollback_eligibility_witness :
    rollback_command exDB exFS 4 true =
      ({ success := false, dryRun := none, commandId := none
         error := some "No file changes recorded for this command"
         actions := [] }, exFS) ∧
    (can_rollback exDB exFS 3).1 = false ∧
    (can_rollback exDB exFS 3).2 = "No backup available for w/c.txt" ∧
    can_rollback exDB exFS 1 = (true, "Rollback is possible") := by
  refine ⟨(rollback_eligibility exDB exFS 4 true).1 (by decide),
          ((rollback_eligibility exDB exFS 3 true).2.1
            ⟨mkFC 3 3 "w/c.txt" ChangeKind.modified none, by decide, by decide⟩).1,
          by decide,
          (rollback_eligibility exDB exFS 1 true).2.2 (by decide) (by decide)⟩

/-! ## Helper lemmas: apply-mode rollback -/

theorem lookup_filter_ne (l : List (String × String)) (k p : String) (h : p ≠ k) :
    (l.filter (fun kv => kv.1 ≠ k)).lookup p = l.lookup p := by
  induction l with
  | nil => rfl
  | cons kv rest ih =>
      obtain ⟨k', v⟩ := kv
      simp only [ne_eq, decide_not] at ih ⊢
      by_cases hk : k' = k
      · subst hk
        have hpk : (p == k') = false := by simp [h]
        simp [List.filter_cons, List.lookup_cons, hpk, ih]
      · by_cases hpk : p = k'
        · simp [List.filter_cons, hk, List.lookup_cons, hpk]
        · have hpk' : (p == k') = false := by simp [hpk]
          simp [List.filter_cons, hk, List.lookup_cons, hpk', ih]

theorem lookup_filter_ne' (l : List (String × String)) (k p : String)
    (h : p ≠ k) :
    (l.filter (fun kv => !decide (kv.1 = k))).lookup p = l.lookup p := by
  have h2 := lookup_filter_ne l k p h
  simpa [ne_eq, decide_not] using h2

theorem FS_write_lookup_ne (fs : FS) (dst c p : String) (hp : p ≠ dst) :
    (fs.write dst c).files.lookup p = fs.files.lookup p := by
  have hpd : (p == dst) = false := by simp [hp]
  show List.lookup p ((dst, c) :: fs.files.filter (fun kv => kv.1 ≠ dst)) =
    fs.files.lookup p
  simp only [List.lookup_cons, hpd]
  exact lookup_filter_ne fs.files dst p hp

theorem FS_unlink_ok (fs fs2 : FS) (t : String) (h : fs.unlink t = .ok fs2) :
    fs2.files = fs.files.filter (fun kv => kv.1 ≠ t) := by
  unfold FS.unlink at h
  by_cases h1 : fs.exists? t = true
  · by_cases h2 : t ∈ fs.denied
    · simp [h1, h2] at h
    · simp [h1, h2] at h
      rw [← h]
      simp [ne_eq, decide_not]
  · simp [h1] at h

theorem restore_file_frame (fs : FS) (b dst p : String) (hp : p ≠ dst) :
    (restore_file fs b dst).2.files.lookup p = fs.files.lookup p := by
  unfold restore_file
  cases h : fs.files.lookup b with
  | none => simp
  | some content =>
      by_cases hd : b ∈ fs.denied ∨ dst ∈ fs.denied
      · simp [hd]
      · simp [hd, FS_write_lookup_ne fs dst content p hp]

theorem rollbackStep_type (fs : FS) (dr : Bool) (fc : FileChange) :
    (rollbackStep fs dr fc).1.type = fc.changeType := by
  cases h : fc.changeType
  · simp only [rollbackStep, h]
    cases dr
    · cases hu : fs.unlink fc.filePath <;> simp
    · simp
  · simp only [rollbackStep, h]
    cases dr
    · cases hr : (restore_file fs (fc.backupPath.getD "") fc.filePath).1 <;> simp
    · simp
  · simp only [rollbackStep, h]
    cases dr
    · cases hr : (restore_file fs (fc.backupPath.getD "") fc.filePath).1 <;> simp
    · simp

theorem rollbackStep_apply_not_pending (fs : FS) (fc : FileChange) :
    (rollbackStep fs false fc).1.status ≠ ActionStatus.pending := by
  cases h : fc.changeType <;> simp only [rollbackStep, h]
  · cases hu : fs.unlink fc.filePath <;> simp
  · cases hr : (restore_file fs (fc.backupPath.getD "") fc.filePath).1 <;> simp [hr]
  · cases hr : (restore_file fs (fc.backupPath.getD "") fc.filePath).1 <;> simp [hr]

theorem rollbackStep_error_created (fs : FS) (fc : FileChange)
    (h : fc.changeType = ChangeKind.created)
    (hf : (rollbackStep fs false fc).1.status = ActionStatus.failed) :
    (rollbackStep fs false fc).1.error ≠ none := by
  simp only [rollbackStep, h] at hf ⊢
  cases hu : fs.unlink fc.filePath with
  | ok fs2 => simp [hu] at hf
  | error e => simp [hu]

theorem rollbackStep_error_noncreated (fs : FS) (dr : Bool) (fc : FileChange)
    (h : fc.changeType ≠ ChangeKind.created) :
    (rollbackStep fs dr fc).1.error = none := by
  cases hk : fc.changeType
  · exact absurd hk h
  · simp only [rollbackStep, hk]
    cases dr <;> simp
  · simp only [rollbackStep, hk]
    cases dr <;> simp

theorem rollbackStep_frame (fs : FS) (dr : Bool) (fc : FileChange) (p : String)
    (hp : p ≠ fc.filePath) :
    (rollbackStep fs dr fc).2.files.lookup p = fs.files.lookup p := by
  cases hk : fc.changeType <;> simp only [rollbackStep, hk]
  · cases dr
    · cases hu : fs.unlink fc.filePath with
      | ok fs2 =>
          simp [FS_unlink_ok fs fs2 _ hu, lookup_filter_ne' _ _ _ hp]
      | error e => simp
    · simp
  · cases dr
    · simp [restore_file_frame fs _ _ p hp]
    · simp
  · cases dr
    · simp [restore_file_frame fs _ _ p hp]
    · simp

theorem rollbackExec_length (l : List FileChange) (fs : FS) (dr : Bool) :
    (rollbackExec fs dr l).1.length = l.length := by
  induction l generalizing fs with
  | nil => simp [rollbackExec]
  | cons fc rest ih => simp [rollbackExec, ih]

theorem rollbackExec_apply_not_pending (l : List FileChange) (fs : FS) :
    ∀ a ∈ (rollbackExec fs false l).1, a.status ≠ ActionStatus.pending := by
  induction l generalizing fs with
  | nil => simp [rollbackExec]
  | cons fc rest ih =>
      intro a ha
      simp only [rollbackExec, List.mem_cons] at ha
      rcases ha with h | h
      · rw [h]; exact rollbackStep_apply_not_pending fs fc
      · exact ih _ a h

theorem rollbackExec_errors (l : List FileChange) (fs : FS) :
    (∀ a ∈ (rollbackExec fs false l).1,
      a.type = ChangeKind.created → a.status = ActionStatus.failed →
        a.error ≠ none) ∧
    (∀ a ∈ (rollbackExec fs false l).1,
      a.type ≠ ChangeKind.created → a.error = none) := by
  induction l generalizing fs with
  | nil => simp [rollbackExec]
  | cons fc rest ih =>
      obtain ⟨ih1, ih2⟩ := ih (rollbackStep fs false fc).2
      constructor
      · intro a ha ht hf
        simp only [rollbackExec, List.mem_cons] at ha
        rcases ha with h | h
        · subst h
          exact rollbackStep_error_created fs fc
            (by rw [← rollbackStep_type fs false fc]; exact ht) hf
        · exact ih1 a h ht hf
      · intro a ha ht
        simp only [rollbackExec, List.mem_cons] at ha
        rcases ha with h | h
        · subst h
          exact rollbackStep_error_noncreated fs false fc
            (by rw [← rollbackStep_type fs false fc]; exact ht)
        · exact ih2 a h ht

theorem rollbackExec_frame (l : List FileChange) (fs : FS) (dr : Bool)
    (p : String) (hp : p ∉ l.map FileChange.filePath) :
    (rollbackExec fs dr l).2.files.lookup p = fs.files.lookup p := by
  induction l generalizing fs with
  | nil => simp [rollbackExec]
  | cons fc rest ih =>
      simp only [List.map_cons, List.mem_cons, not_or] at hp
      calc (rollbackExec fs dr (fc :: rest)).2.files.lookup p
          = (rollbackExec (rollbackStep fs dr fc).2 dr rest).2.files.lookup p := by
            simp [rollbackExec]
        _ = (rollbackStep fs dr fc).2.files.lookup p := ih _ (by
              intro hmem
              exact hp.2 hmem)
        _ = fs.files.lookup p := rollbackStep_frame fs dr fc p hp.1

theorem lookup_filter_self (l : List (String × String)) (k : String) :
    (l.filter (fun kv => kv.1 ≠ k)).lookup k = none := by
  induction l with
  | nil => rfl
  | cons kv rest ih =>
      obtain ⟨k', v⟩ := kv
      simp only [ne_eq, decide_not] at ih ⊢
      by_cases hk : k' = k
      · subst hk
        simp [List.filter_cons, ih]
      · have hb : (k == k') = false := beq_eq_false_iff_ne.mpr (Ne.symm hk)
        simp [List.filter_cons, hk, List.lookup_cons, hb, ih]

theorem FS_write_lookup_self (fs : FS) (dst c : String) :
    (fs.write dst c).files.lookup dst = some c := by
  show List.lookup dst ((dst, c) :: fs.files.filter (fun kv => kv.1 ≠ dst)) =
    some c
  simp [List.lookup_cons]

theorem restore_file_success (fs : FS) (b dst : String)
    (h : (restore_file fs b dst).1 = true) :
    (restore_file fs b dst).2.files.lookup dst = fs.files.lookup b := by
  unfold restore_file at h ⊢
  cases hb : fs.files.lookup b with
  | none => simp [hb] at h
  | some content =>
      simp only [hb] at h ⊢
      by_cases hd : b ∈ fs.denied ∨ dst ∈ fs.denied
      · simp [hd] at h
      · simp [hd, FS_write_lookup_self]

theorem rollbackStep_created_success (fs : FS) (fc : FileChange)
    (hk : fc.changeType = ChangeKind.created)
    (hs : (rollbackStep fs false fc).1.status = ActionStatus.success) :
    (rollbackStep fs false fc).2.files.lookup fc.filePath = none := by
  simp only [rollbackStep, hk] at hs ⊢
  cases hu : fs.unlink fc.filePath with
  | ok fs2 =>
      simp only [hu]
      simp only [Bool.false_eq_true, if_false]
      show fs2.files.lookup fc.filePath = none
      rw [FS_unlink_ok fs fs2 _ hu]
      exact lookup_filter_self fs.files fc.filePath
  | error e => simp [hu] at hs

theorem rollbackStep_restore_success (fs : FS) (fc : FileChange)
    (hk : fc.changeType ≠ ChangeKind.created)
    (hs : (rollbackStep fs false fc).1.status = ActionStatus.success) :
    (rollbackStep fs false fc).2.files.lookup fc.filePath =
      fs.files.lookup (fc.backupPath.getD "") := by
  cases hkk : fc.changeType
  · exact absurd hkk hk
  · simp only [rollbackStep, hkk] at hs ⊢
    by_cases hr : (restore_file fs (fc.backupPath.getD "") fc.filePath).1 =
        true
    · simp only [Bool.false_eq_true, if_false]
      show (restore_file fs (fc.backupPath.getD "") fc.filePath).2.files.lookup
        fc.filePath = fs.files.lookup (fc.backupPath.getD "")
      exact restore_file_success fs _ _ hr
    · simp only [Bool.not_eq_true] at hr
      simp [hr] at hs
  · simp only [rollbackStep, hkk] at hs ⊢
    by_cases hr : (restore_file fs (fc.backupPath.getD "") fc.filePath).1 =
        true
    · simp only [Bool.false_eq_true, if_false]
      show (restore_file fs (fc.backupPath.getD "") fc.filePath).2.files.lookup
        fc.filePath = fs.files.lookup (fc.backupPath.getD "")
      exact restore_file_success fs _ _ hr
    · simp only [Bool.not_eq_true] at hr
      simp [hr] at hs

theorem rollbackExec_no_undo (l : List FileChange) (fs : FS)
    (hnd : (l.map FileChange.filePath).Nodup)
    (hbk : ∀ fc ∈ l, fc.changeType ≠ ChangeKind.created →
      (fc.backupPath.getD "") ∉ l.map FileChange.filePath) :
    ∀ pr ∈ l.zip (rollbackExec fs false l).1,
      pr.2.status = ActionStatus.success →
      (pr.1.changeType = ChangeKind.created →
        (rollbackExec fs false l).2.files.lookup pr.1.filePath = none) ∧
      (pr.1.changeType ≠ ChangeKind.created →
        (rollbackExec fs false l).2.files.lookup pr.1.filePath =
          fs.files.lookup (pr.1.backupPath.getD "")) := by
  induction l generalizing fs with
  | nil =>
      intro pr hpr
      simp at hpr
  | cons fc0 rest ih =>
      simp only [List.map_cons, List.nodup_cons] at hnd
      intro pr hpr hsucc
      have hact : (rollbackExec fs false (fc0 :: rest)).1 =
          (rollbackStep fs false fc0).1 ::
            (rollbackExec (rollbackStep fs false fc0).2 false rest).1 := rfl
      have hfin : (rollbackExec fs false (fc0 :: rest)).2 =
          (rollbackExec (rollbackStep fs false fc0).2 false rest).2 := rfl
      rw [hact, List.zip_cons_cons] at hpr
      rcases List.mem_cons.mp hpr with hh | hh
      · subst hh
        dsimp only at hsucc ⊢
        constructor
        · intro hk
          rw [hfin,
            rollbackExec_frame rest (rollbackStep fs false fc0).2 false
              fc0.filePath hnd.1]
          exact rollbackStep_created_success fs fc0 hk hsucc
        · intro hk
          rw [hfin,
            rollbackExec_frame rest (rollbackStep fs false fc0).2 false
              fc0.filePath hnd.1]
          exact rollbackStep_restore_success fs fc0 hk hsucc
      · have hbk2 : ∀ fc ∈ rest, fc.changeType ≠ ChangeKind.created →
            (fc.backupPath.getD "") ∉ rest.map FileChange.filePath := by
          intro fc hm hk hmem
          exact hbk fc (List.mem_cons_of_mem _ hm) hk
            (List.mem_cons_of_mem _ hmem)
        have hres := ih (rollbackStep fs false fc0).2 hnd.2 hbk2 pr hh hsucc
        constructor
        · intro hk
          rw [hfin]
          exact hres.1 hk
        · intro hk
          rw [hfin, hres.2 hk]
          have hm1 : pr.1 ∈ rest := (List.of_mem_zip hh).1
          have hnot := hbk pr.1 (List.mem_cons_of_mem _ hm1) hk
          have hne : pr.1.backupPath.getD "" ≠ fc0.filePath := by
            intro heq
            apply hnot
            rw [List.map_cons, heq]
            exact List.mem_cons_self ..
          exact rollbackStep_frame fs false fc0 _ hne

/-! ## C3 -/

/-- C3 counterexample: command 6's single modified record has an existing
backup, but its restore destination is write-denied; in apply mode the
action is recorded as 'failed' with NO error message (`restore_file` returns
only a boolean), refuting the claim that a failure is always recorded with
an error message. -/
theorem rollback_restore_failure_lacks_message :
    (rollback_command exDB exFS 6 false).1.success = false ∧
    (rollback_command exDB exFS 6 false).1.actions.map RollbackAction.status =
      [ActionStatus.failed] ∧
    (rollback_command exDB exFS 6 false).1.actions.map RollbackAction.error =
      [none] := by decide

/-- C3 (amended): in apply mode every planned action is attempted (one
action per record, none left pending) and a failure on one file neither
halts the others, nor touches any file outside the planned set, nor undoes
actions already applied: pairing each record with its action, whenever the
action succeeded its effect at that record's file persists to the end of
the batch — a deleted creation stays absent and a restored file still holds
the backup's original bytes — provided the planned paths are pairwise
distinct and no restore's backup lives among them (as when the tracker
emits one record per file and backups sit in the backup directory); a
failed delete of a created file carries the exception message in its error
field, while a failed restore records only the 'failed' status with no
message; the overall success field is true iff no action has status
'failed'. -/
theorem rollback_apply_independent (db : DB) (fs : FS) (cid : Nat)
    (h : (can_rollback db fs cid).1 = true) :
    (rollback_command db fs cid false).1.actions.length =
      (get_file_changes db cid).length ∧
    (∀ a ∈ (rollback_command db fs cid false).1.actions,
      a.status ≠ ActionStatus.pending) ∧
    ((rollback_command db fs cid false).1.success = true ↔
      ∀ a ∈ (rollback_command db fs cid false).1.actions,
        a.status ≠ ActionStatus.failed) ∧
    (∀ a ∈ (rollback_command db fs cid false).1.actions,
      a.type = ChangeKind.created → a.status = ActionStatus.failed →
        a.error ≠ none) ∧
    (∀ a ∈ (rollback_command db fs cid false).1.actions,
      a.type ≠ ChangeKind.created → a.error = none) ∧
    (∀ p, p ∉ (get_file_changes db cid).map FileChange.filePath →
      (rollback_command db fs cid false).2.files.lookup p =
        fs.files.lookup p) ∧
    (((get_file_changes db cid).map FileChange.filePath).Nodup →
      (∀ fc ∈ get_file_changes db cid,
        fc.changeType ≠ ChangeKind.created →
        (fc.backupPath.getD "") ∉
          (get_file_changes db cid).map FileChange.filePath) →
      ∀ pr ∈ (get_file_changes db cid).zip
          (rollback_command db fs cid false).1.actions,
        pr.2.status = ActionStatus.success →
        (pr.1.changeType = ChangeKind.created →
          (rollback_command db fs cid false).2.files.lookup pr.1.filePath =
            none) ∧
        (pr.1.changeType ≠ ChangeKind.created →
          (rollback_command db fs cid false).2.files.lookup pr.1.filePath =
            fs.files.lookup (pr.1.backupPath.getD ""))) := by
  have hact : (rollback_command db fs cid false).1.actions =
      (rollbackExec fs false (get_file_changes db cid)).1 := by
    simp [rollback_command, h]
  have hfs : (rollback_command db fs cid false).2 =
      (rollbackExec fs false (get_file_changes db cid)).2 := by
    simp [rollback_command, h]
  have hsucc : (rollback_command db fs cid false).1.success =
      (rollbackExec fs false (get_file_changes db cid)).1.all
        (fun a => a.status ≠ ActionStatus.failed) := by
    simp [rollback_command, h]
  refine ⟨?_, ?_, ?_, ?_, ?_, ?_, ?_⟩
  · rw [hact]; exact rollbackExec_length _ fs false
  · rw [hact]; exact rollbackExec_apply_not_pending _ fs
  · rw [hact, hsucc]
    simp [List.all_eq_true]
  · rw [hact]; exact (rollbackExec_errors _ fs).1
  · rw [hact]; exact (rollbackExec_errors _ fs).2
  · intro p hp
    rw [hfs]
    exact rollbackExec_frame _ fs false p hp
  · intro hnd hbk pr hpr hsucc2
    rw [hact] at hpr
    rw [hfs]
    exact rollbackExec_no_undo _ fs hnd hbk pr hpr hsucc2

/-- C3 witness: applying the rollback of fixture command 2 (one restorable
modification) attempts its one action, succeeds overall, and leaves an
unrelated backup file untouched; on fixture command 8 the first restore
succeeds and the second fails, yet the first file still holds the backup's
bytes afterwards — the failure did not undo the applied action. -/
theorem rollback_apply_independent_witness :
    (rollback_command exDB exFS 2 false).1.actions.length = 1 ∧
    (rollback_command exDB exFS 2 false).1.success = true ∧
    (rollback_command exDB exFS 2 false).2.files.lookup "bk/e1" =
      exFS.files.lookup "bk/e1" ∧
    (rollback_command exDB exFS 8 false).1.actions.map
      RollbackAction.status = [ActionStatus.success, ActionStatus.failed] ∧
    (rollback_command exDB exFS 8 false).2.files.lookup "w/b.txt" =
      exFS.files.lookup "bk/b1" := by
  have h := rollback_apply_independent exDB exFS 2 (by decide)
  have h8 := rollback_apply_independent exDB exFS 8 (by decide)
  refine ⟨?_, h.2.2.1.mpr (by decide), h.2.2.2.2.2.1 "bk/e1" (by decide),
    by decide, ?_⟩
  · rw [h.1]; decide
  · exact (h8.2.2.2.2.2.2 (by decide) (by decide)
      (mkFC 7 8 "w/b.txt" ChangeKind.modified (some "bk/b1"),
       { file := "w/b.txt", type := ChangeKind.modified
         status := ActionStatus.success, action := some "restore"
         backup := some "bk/b1", error := none })
      (by decide) (by decide)).2 (by decide)

/-! ## C9 -/

/-- C9: for a command whose single file-change record is a creation of path
P, if P is already absent at apply time the delete raises, the action is
recorded as 'failed' with the exception message in its error field, and the
overall result is success=false with the filesystem unchanged. -/
theorem rollback_created_already_absent (db : DB) (fs : FS) (cid : Nat)
    (fc : FileChange)
    (hfc : get_file_changes db cid = [fc])
    (hk : fc.changeType = ChangeKind.created)
    (hex : fs.exists? fc.filePath = false) :
    rollback_command db fs cid false =
      ({ success := false, dryRun := some false, commandId := some cid
         error := none
         actions := [{ file := fc.filePath, type := ChangeKind.created
                       status := ActionStatus.failed, action := some "delete"
                       backup := none
                       error := some ("No such file or directory: "
                         ++ fc.filePath) }] }, fs) := by
  have hcan : can_rollback db fs cid = (true, "Rollback is possible") := by
    simp [can_rollback, hfc, canRollbackLoop, needsBackup, hk]
  have hunlink : fs.unlink fc.filePath =
      .error ("No such file or directory: " ++ fc.filePath) := by
    simp [FS.unlink, hex]
  simp [rollback_command, hcan, hfc, rollbackExec, rollbackStep, hk, hunlink]

/-- C9 witness: fixture command 7 records the creation of `w/gone.txt`,
which is absent from the fixture filesystem; apply-mode rollback fails as
described. -/
theorem rollback_created_already_absent_witness :
    rollback_command exDB exFS 7 false =
      ({ success := false, dryRun := some false, commandId := some 7
         error := none
         actions := [{ file := "w/gone.txt", type := ChangeKind.created
                       status := ActionStatus.failed, action := some "delete"
                       backup := none
                       error := some "No such file or directory: w/gone.txt" }] },
       exFS) :=
  rollback_created_already_absent exDB exFS 7
    (mkFC 6 7 "w/gone.txt" ChangeKind.created none)
    (by decide) (by decide) (by decide)

/-! ## Helper lemmas: sessions and counters -/

theorem updateSessionCounters_id (ec : Option Int) (s : Session) :
    (updateSessionCounters ec s).id = s.id := rfl

theorem find?_map_update (l : List Session) (sid sid' : String)
    (ec : Option Int) :
    (l.map (fun s => if s.id = sid then updateSessionCounters ec s else s)).find?
        (fun s => s.id = sid') =
      if sid' = sid then
        (l.find? (fun s => s.id = sid')).map (updateSessionCounters ec)
      else l.find? (fun s => s.id = sid') := by
  induction l with
  | nil => by_cases h2 : sid' = sid <;> simp [h2]
  | cons s rest ih =>
      by_cases h2 : sid' = sid
      · subst h2
        rw [if_pos rfl] at ih ⊢
        by_cases h1 : s.id = sid'
        · rw [List.map_cons, if_pos h1, List.find?_cons, List.find?_cons]
          simp [updateSessionCounters_id, h1]
        · rw [List.map_cons, if_neg h1, List.find?_cons, List.find?_cons]
          simp [h1, ih]
      · rw [if_neg h2] at ih ⊢
        by_cases h1 : s.id = sid
        · have h3 : s.id ≠ sid' := fun hc => h2 (by rw [← hc, h1])
          rw [List.map_cons, if_pos h1, List.find?_cons, List.find?_cons]
          simp [updateSessionCounters_id, h3, ih]
        · rw [List.map_cons, if_neg h1, List.find?_cons, List.find?_cons]
          by_cases h3 : s.id = sid'
          · simp [h3]
          · simp [h3, ih]

theorem get_session_recordOne (db : DB) (sid sid' : String) (ec : Option Int) :
    get_session (recordOne db sid ec) sid' =
      if sid' = sid then (get_session db sid').map (updateSessionCounters ec)
      else get_session db sid' := by
  unfold get_session recordOne record_command
  exact find?_map_update db.sessions sid sid' ec

theorem update_successCount (e : Option Int) (s : Session) :
    (updateSessionCounters e s).successCount =
      s.successCount + (if isSuccessCode e then 1 else 0) := by
  cases e with
  | none => rfl
  | some x =>
      by_cases hx : x = 0 <;> simp [updateSessionCounters, isSuccessCode, hx]

theorem update_errorCount (e : Option Int) (s : Session) :
    (updateSessionCounters e s).errorCount =
      s.errorCount + (if isErrorCode e then 1 else 0) := by
  cases e with
  | none => rfl
  | some x =>
      by_cases hx : x = 0 <;> simp [updateSessionCounters, isErrorCode, hx]

theorem update_commandCount (e : Option Int) (s : Session) :
    (updateSessionCounters e s).commandCount = s.commandCount + 1 := rfl

theorem get_session_recordMany (ecs : List (Option Int)) (db : DB)
    (sid : String) (s : Session) (h : get_session db sid = some s) :
    get_session (recordMany db sid ecs) sid =
      some (ecs.foldl (fun t e => updateSessionCounters e t) s) := by
  induction ecs generalizing db s with
  | nil => simpa [recordMany] using h
  | cons e rest ih =>
      have h1 : get_session (recordOne db sid e) sid =
          some (updateSessionCounters e s) := by
        rw [get_session_recordOne, if_pos rfl, h]
        rfl
      have h3 : recordMany db sid (e :: rest) =
          recordMany (recordOne db sid e) sid rest := by
        simp [recordMany]
      rw [h3, List.foldl_cons]
      exact ih _ _ h1

theorem foldl_counters (ecs : List (Option Int)) (s : Session) :
    (ecs.foldl (fun t e => updateSessionCounters e t) s).successCount =
      s.successCount + ecs.countP isSuccessCode ∧
    (ecs.foldl (fun t e => updateSessionCounters e t) s).errorCount =
      s.errorCount + ecs.countP isErrorCode ∧
    (ecs.foldl (fun t e => updateSessionCounters e t) s).commandCount =
      s.commandCount + ecs.length := by
  induction ecs generalizing s with
  | nil => simp
  | cons e rest ih =>
      obtain ⟨i1, i2, i3⟩ := ih (updateSessionCounters e s)
      simp only [List.foldl_cons, List.countP_cons, List.length_cons]
      refine ⟨?_, ?_, ?_⟩
      · rw [i1, update_successCount]
        by_cases hp : isSuccessCode e = true
        all_goals simp [hp]
        all_goals omega
      · rw [i2, update_errorCount]
        by_cases hp : isErrorCode e = true
        all_goals simp [hp]
        all_goals omega
      · rw [i3, update_commandCount]
        omega

theorem countP_success_error_partition (ecs : List (Option Int)) :
    ecs.countP isSuccessCode + ecs.countP isErrorCode ≤ ecs.length ∧
    (ecs.countP isSuccessCode + ecs.countP isErrorCode = ecs.length ↔
      none ∉ ecs) := by
  induction ecs with
  | nil => simp
  | cons e rest ih =>
      obtain ⟨ih1, ih2⟩ := ih
      cases e with
      | none =>
          have hs : isSuccessCode none = false := rfl
          have he' : isErrorCode none = false := rfl
          simp only [List.countP_cons, List.length_cons, List.mem_cons, hs,
            he', Bool.false_eq_true, if_false, Nat.add_zero]
          refine ⟨by omega, ⟨fun hEq => absurd hEq (by omega),
            fun hn => absurd (by simp) hn⟩⟩
      | some x =>
          by_cases hx : x = 0
          · subst hx
            have hs : isSuccessCode (some 0) = true := rfl
            have he' : isErrorCode (some 0) = false := rfl
            have hne : ¬ (none : Option Int) = some 0 := by simp
            simp only [List.countP_cons, List.length_cons, List.mem_cons, hs,
              he', Bool.false_eq_true, if_false, if_true, Nat.add_zero, hne,
              false_or]
            refine ⟨by omega, ⟨fun hEq => ih2.mp (by omega),
              fun hmem => by have h4 := ih2.mpr hmem; omega⟩⟩
          · have hs : isSuccessCode (some x) = false := by
              simp [isSuccessCode, hx]
            have he' : isErrorCode (some x) = true := by
              simp [isErrorCode, hx]
            have hne : ¬ (none : Option Int) = some x := by simp
            simp only [List.countP_cons, List.length_cons, List.mem_cons, hs,
              he', Bool.false_eq_true, if_false, if_true, Nat.add_zero, hne,
              false_or]
            refine ⟨by omega, ⟨fun hEq => ih2.mp (by omega),
              fun hmem => by have h4 := ih2.mpr hmem; omega⟩⟩

/-! ## C4 -/

/-- C4: recording against an existing session row increments success_count
iff the exit code is 0, error_count iff it is non-null non-zero, neither
when it is null, and command_count always; consequently, starting from a
session with zeroed counters, after N recorded commands
success_count + error_count ≤ N with equality iff no command had a null
exit code. -/
theorem session_counter_partition (db : DB) (sid : String) (ec : Option Int)
    (ecs : List (Option Int)) (s : Session)
    (h : get_session db sid = some s) :
    ((get_session (recordOne db sid ec) sid).map Session.successCount =
      some (s.successCount + (if ec = some 0 then 1 else 0))) ∧
    ((get_session (recordOne db sid ec) sid).map Session.errorCount =
      some (s.errorCount + (if isErrorCode ec then 1 else 0))) ∧
    ((get_session (recordOne db sid ec) sid).map Session.commandCount =
      some (s.commandCount + 1)) ∧
    (s.successCount = 0 → s.errorCount = 0 →
      ∀ s2, get_session (recordMany db sid ecs) sid = some s2 →
        s2.successCount + s2.errorCount ≤ ecs.length ∧
        (s2.successCount + s2.errorCount = ecs.length ↔ none ∉ ecs)) := by
  have hone : get_session (recordOne db sid ec) sid =
      some (updateSessionCounters ec s) := by
    rw [get_session_recordOne, if_pos rfl, h]
    rfl
  refine ⟨?_, ?_, ?_, ?_⟩
  · rw [hone]
    simp [update_successCount, isSuccessCode]
  · rw [hone]
    simp only [Option.map_some', Option.some.injEq, update_errorCount]
  · rw [hone]
    simp only [Option.map_some', Option.some.injEq, update_commandCount]
  · intro hs he s2 h2
    rw [get_session_recordMany ecs db sid s h] at h2
    injection h2 with h2
    obtain ⟨f1, f2, f3⟩ := foldl_counters ecs s
    obtain ⟨p1, p2⟩ := countP_success_error_partition ecs
    rw [← h2, f1, f2, hs, he]
    simpa using ⟨p1, p2⟩

/-- C4 witness: recording exits 0, 7, NULL into a fresh session gives
success_count 1, error_count 1: the sum 2 is strictly below N = 3 because a
null exit was used, and the null incremented neither counter. -/
theorem session_counter_partition_witness :
    (get_session (recordOne sessDB "s" (some 0)) "s").map
      Session.successCount = some 1 ∧
    (get_session (recordMany sessDB "s" [some 0, some 7, none]) "s").map
      Session.successCount = some 1 ∧
    (get_session (recordMany sessDB "s" [some 0, some 7, none]) "s").map
      Session.errorCount = some 1 := by
  have h := session_counter_partition sessDB "s" (some 0)
    [some 0, some 7, none] (mkSession "s" 0 0 0) (by decide)
  refine ⟨?_, by decide, by decide⟩
  have h1 := h.1
  simpa using h1

/-! ## Helper lemmas: session upsert -/

theorem find?_filter_of_imp (l : List Session) (p q : Session → Bool)
    (h : ∀ x, p x = true → q x = true) :
    (l.filter q).find? p = l.find? p := by
  induction l with
  | nil => rfl
  | cons s rest ih =>
      by_cases hq : q s = true
      · by_cases hp : p s = true
        · simp [List.filter_cons, hq, List.find?_cons, hp]
        · simp only [List.filter_cons, hq, if_true, List.find?_cons]
          simp only [Bool.not_eq_true] at hp
          simp [hp, ih]
      · have hp : p s = false := by
          cases hps : p s
          · rfl
          · exact absurd (h s hps) hq
        simp only [Bool.not_eq_true] at hq
        simp [List.filter_cons, hq, List.find?_cons, hp, ih]

/-! ## C7 -/

/-- C7 counterexample: session "s" has accumulated counters
(command_count 2, success_count 1, error_count 1); re-starting it resets
all three to 0, refuting the claim that the upsert does not clear the
already-accumulated counters. -/
theorem start_session_clears_counters :
    (get_session sess7DB "s").map Session.successCount = some 1 ∧
    (get_session sess7DB "s").map Session.commandCount = some 2 ∧
    (get_session (start_session sess7DB "s" (some "n2") none none none
        "t1" "/w2") "s").map Session.successCount = some 0 ∧
    (get_session (start_session sess7DB "s" (some "n2") none none none
        "t1" "/w2") "s").map Session.commandCount = some 0 ∧
    (get_session (start_session sess7DB "s" (some "n2") none none none
        "t1" "/w2") "s").map Session.errorCount = some 0 := by
  decide

/-- C7 (amended): start_session is an idempotent upsert that replaces the
whole session row — name, description, start timestamp, metadata — and, as
part of the replace, resets command_count, success_count and error_count to
0 and clears ended_at; rows of other session ids are untouched. -/
theorem start_session_upsert (db : DB) (sid : String)
    (n d a m : Option String) (ts cwd : String) :
    get_session (start_session db sid n d a m ts cwd) sid =
      some { id := sid, name := n, description := d, startedAt := ts
             endedAt := none, commandCount := 0, successCount := 0
             errorCount := 0, cwdStart := some cwd, agentName := a
             metadata := m } ∧
    ∀ sid2, sid2 ≠ sid →
      get_session (start_session db sid n d a m ts cwd) sid2 =
        get_session db sid2 := by
  constructor
  · unfold get_session start_session
    rw [List.find?_append]
    have h1 : (db.sessions.filter (fun s => s.id ≠ sid)).find?
        (fun s => decide (s.id = sid)) = none := by
      rw [List.find?_eq_none]
      intro x hx
      have := (List.mem_filter.mp hx).2
      simp at this ⊢
      exact this
    rw [h1]
    simp
  · intro sid2 hne
    unfold get_session start_session
    rw [List.find?_append]
    have h2 : ∀ r : Session, r.id = sid →
        (([r] : List Session).find? (fun s => decide (s.id = sid2))) =
          none := by
      intro r hr
      simp [List.find?_cons, hr, Ne.symm hne]
    rw [h2 _ rfl, Option.or_none]
    exact find?_filter_of_imp db.sessions _ _ (fun x hx => by
      simp at hx ⊢
      rw [hx]
      exact hne)

/-- C7 (amended) witness: re-starting fixture session "s" yields the fresh
row with zeroed counters, and a different id is looked up unchanged. -/
theorem start_session_upsert_witness :
    get_session (start_session sess7DB "s" (some "n2") none none none
        "t1" "/w2") "s" =
      some { id := "s", name := some "n2", description := none
             startedAt := "t1", endedAt := none, commandCount := 0
             successCount := 0, errorCount := 0, cwdStart := some "/w2"
             agentName := none, metadata := none } ∧
    get_session (start_session sess7DB "s" (some "n2") none none none
        "t1" "/w2") "other" = get_session sess7DB "other" := by
  have h := start_session_upsert sess7DB "s" (some "n2") none none none
    "t1" "/w2"
  exact ⟨h.1, h.2 "other" (by decide)⟩

/-! ## Helper lemmas: query sorting -/

theorem mem_insertByTsDesc (c x : CommandRow) (l : List CommandRow) :
    x ∈ insertByTsDesc c l ↔ x = c ∨ x ∈ l := by
  induction l with
  | nil => simp [insertByTsDesc]
  | cons d ds ih =>
      unfold insertByTsDesc
      by_cases h : strLe c.timestamp d.timestamp = true
      · rw [if_pos h]
        simp only [List.mem_cons, ih]
        tauto
      · rw [if_neg h]
        simp only [List.mem_cons]

theorem mem_sortByTsDesc (x : CommandRow) (l : List CommandRow) :
    x ∈ sortByTsDesc l ↔ x ∈ l := by
  induction l with
  | nil => simp [sortByTsDesc]
  | cons c cs ih =>
      simp only [sortByTsDesc, mem_insertByTsDesc, List.mem_cons, ih]

/-! ## C5 -/

/-- C5: when a search text is supplied, the since and errors-only filters
are ignored — the result is identical whatever their values — and, absent a
session filter, the result set is exactly the FTS matches of the command
text and indexed output, ordered by descending timestamp and capped at the
limit. -/
theorem search_ignores_range_filters (db : DB) (sid : Option String)
    (limit : Nat) (since : Option String) (we : Bool) (q : String)
    (matchFn : String → String → String → Bool) (hq : q ≠ "") :
    get_commands db sid limit since we (some q) matchFn =
      get_commands db sid limit none false (some q) matchFn ∧
    (strOptTruthy sid = false →
      get_commands db sid limit since we (some q) matchFn =
        (sortByTsDesc (db.commands.filter
          (fun c => matchFn q c.command (c.output.getD "")))).take limit) := by
  have hqt : strOptTruthy (some q) = true := by simp [strOptTruthy, hq]
  constructor
  · simp [get_commands, hqt]
  · intro hsid
    simp [get_commands, hqt, hsid]

/-- C5 witness: with commands "build project" and "test project" recorded,
searching "build" returns only the former, even though a since bound and
errors-only flag are also set that would exclude it in range mode. -/
theorem search_ignores_range_filters_witness :
    get_commands searchDB none 50 (some "2026-01-01T10:30:00") true
      (some "build") ftsTermMatch =
      [mkCmd 1 "s1" "2026-01-01T10:00:00" "build project" (some 0)
        (some "ok")] ∧
    get_commands searchDB none 50 none false (some "build") ftsTermMatch =
      [mkCmd 1 "s1" "2026-01-01T10:00:00" "build project" (some 0)
        (some "ok")] := by
  have h := search_ignores_range_filters searchDB none 50
    (some "2026-01-01T10:30:00") true "build" ftsTermMatch (by decide)
  refine ⟨?_, by decide⟩
  rw [h.1]
  decide

/-! ## C10 -/

/-- C10: when a search text and a session id are both supplied, the session
filter is still applied in search mode: every returned row belongs to the
supplied session and matches the full-text search. -/
theorem search_keeps_session_filter (db : DB) (sid q : String) (limit : Nat)
    (since : Option String) (we : Bool)
    (matchFn : String → String → String → Bool) (hq : q ≠ "")
    (hsid : sid ≠ "") (c : CommandRow)
    (hc : c ∈ get_commands db (some sid) limit since we (some q) matchFn) :
    c.sessionId = sid ∧ matchFn q c.command (c.output.getD "") = true := by
  have hqt : strOptTruthy (some q) = true := by simp [strOptTruthy, hq]
  have hst : strOptTruthy (some sid) = true := by simp [strOptTruthy, hsid]
  simp only [get_commands, hqt, if_true] at hc
  have hc2 := List.take_subset _ _ hc
  rw [mem_sortByTsDesc] at hc2
  have hc3 := (List.mem_filter.mp hc2).2
  simp only [hst, Bool.not_true, Bool.false_or, Bool.and_eq_true,
    decide_eq_true_eq, Option.getD_some] at hc3
  exact ⟨hc3.2, hc3.1⟩

/-- C10 witness: searching "docs" inside session "s2" returns the matching
row of that session, whose fields satisfy both filters. -/
theorem search_keeps_session_filter_witness :
    (mkCmd 3 "s2" "2026-01-01T12:00:00" "deploy docs"
        (some 0) none).sessionId = "s2" ∧
    ftsTermMatch "docs" "deploy docs" "" = true := by
  exact search_keeps_session_filter searchDB "s2" "docs" 50 none false
    ftsTermMatch (by decide) (by decide)
    (mkCmd 3 "s2" "2026-01-01T12:00:00" "deploy docs" (some 0) none)
    (by decide)

/-! ## Helper lemmas: statistics -/

theorem exit_code_partition (l : List CommandRow) :
    l.countP (fun c => c.exitCode = some 0) + l.countP exitCodeNonZero +
      l.countP (fun c => c.exitCode = none) = l.length := by
  induction l with
  | nil => simp
  | cons c rest ih =>
      simp only [List.countP_cons, List.length_cons]
      cases hc : c.exitCode with
      | none =>
          simp only [exitCodeNonZero, hc]
          simp
          omega
      | some x =>
          by_cases hx : x = 0
          · subst hx
            simp only [exitCodeNonZero, hc]
            simp
            omega
          · simp only [exitCodeNonZero, hc]
            simp [hx]
            omega

/-! ## C8 -/

/-- C8: get_stats counts as successful exactly the commands with exit code
0 and as failed exactly those with a non-null non-zero exit code (null-exit
commands land in neither bucket, so the three classes partition the total);
the success rate is successful/total*100 rounded to one decimal when total
is positive and the number 0 (not an error value) when total is zero. -/
theorem get_stats_success_rate (db : DB) :
    (get_stats db).successfulCommands =
      db.commands.countP (fun c => c.exitCode = some 0) ∧
    (get_stats db).failedCommands = db.commands.countP exitCodeNonZero ∧
    (get_stats db).successfulCommands + (get_stats db).failedCommands +
        db.commands.countP (fun c => c.exitCode = none) =
      (get_stats db).totalCommands ∧
    ((get_stats db).totalCommands = 0 → (get_stats db).successRate = 0) ∧
    (0 < (get_stats db).totalCommands →
      (get_stats db).successRate =
        roundTo1 (((get_stats db).successfulCommands : ℚ) /
          ((get_stats db).totalCommands : ℚ) * 100)) := by
  have hs : (get_stats db).successfulCommands =
      db.commands.countP (fun c => c.exitCode = some 0) := by
    simp [get_stats, List.countP_eq_length_filter]
  have hf : (get_stats db).failedCommands =
      db.commands.countP exitCodeNonZero := by
    simp [get_stats, List.countP_eq_length_filter]
  have ht : (get_stats db).totalCommands = db.commands.length := rfl
  refine ⟨hs, hf, ?_, ?_, ?_⟩
  · rw [hs, hf, ht]
    exact exit_code_partition db.commands
  · intro h0
    rw [ht] at h0
    simp [get_stats, h0]
  · intro hpos
    rw [ht] at hpos
    simp [get_stats, hpos]

/-- C8 witness: on four commands with exits 0, 1, NULL, 0 the stats count
2 successes, 1 failure, 1 null (partitioning the total of 4), and the
success rate is 50; on the empty store the rate is 0, not an error. -/
theorem get_stats_success_rate_witness :
    (get_stats statsDB).successfulCommands = 2 ∧
    (get_stats statsDB).failedCommands = 1 ∧
    (get_stats statsDB).successfulCommands +
        (get_stats statsDB).failedCommands +
        statsDB.commands.countP (fun c => c.exitCode = none) =
      (get_stats statsDB).totalCommands ∧
    (get_stats statsDB).successRate = 50 ∧
    (get_stats { commands := [], fileChanges := [], sessions := []
                 nextCommandId := 1 }).successRate = 0 := by
  have h := get_stats_success_rate statsDB
  have h0 := get_stats_success_rate
    { commands := [], fileChanges := [], sessions := [], nextCommandId := 1 }
  refine ⟨by decide, by decide, h.2.2.1, ?_, h0.2.2.2.1 (by decide)⟩
  have h5 := h.2.2.2.2 (by decide)
  have hsucc : (get_stats statsDB).successfulCommands = 2 := by decide
  have htot : (get_stats statsDB).totalCommands = 4 := by decide
  rw [h5, hsucc, htot]
  have h50 : ((2:ℕ):ℚ) / ((4:ℕ):ℚ) * 100 = 50 := by norm_num
  rw [roundTo1, h50]
  have h500 : (10:ℚ) * 50 = ((500:ℤ):ℚ) := by norm_num
  rw [h500, round_intCast]
  norm_num

/-! ## Helper lemmas: association-list lookups and keyed counting -/

theorem lookup_isSome_iff {α : Type} (l : List (String × α)) (k : String) :
    (l.lookup k).isSome = true ↔ k ∈ l.map Prod.fst := by
  induction l with
  | nil => simp [List.lookup]
  | cons e rest ih =>
      obtain ⟨k', v⟩ := e
      by_cases h : k = k'
      · subst h
        simp [List.lookup_cons]
      · have hb : (k == k') = false := by simp [h]
        simp [List.lookup_cons, hb, ih, h]

theorem lookup_eq_none_iff {α : Type} (l : List (String × α)) (k : String) :
    l.lookup k = none ↔ k ∉ l.map Prod.fst := by
  rw [← lookup_isSome_iff]
  cases h : l.lookup k <;> simp

theorem lookup_eq_some_of_mem {α : Type} {l : List (String × α)}
    (hnd : (l.map Prod.fst).Nodup) {k : String} {v : α} (h : (k, v) ∈ l) :
    l.lookup k = some v := by
  induction l with
  | nil => simp at h
  | cons e rest ih =>
      obtain ⟨k', v'⟩ := e
      simp only [List.map_cons, List.nodup_cons] at hnd
      rcases List.mem_cons.mp h with he | he
      · obtain ⟨h1, h2⟩ := Prod.mk.injEq .. ▸ he
        subst h1
        subst h2
        simp [List.lookup_cons]
      · have hk : k ≠ k' := by
          intro hkk
          subst hkk
          exact hnd.1 (List.mem_map.mpr ⟨(k, v), he, rfl⟩)
        have hb : (k == k') = false := by simp [hk]
        simp only [List.lookup_cons, hb]
        exact ih hnd.2 he

theorem countP_eq_one_of_key {α : Type} (l : List (String × α)) (rel : String)
    (hnd : (l.map Prod.fst).Nodup) (hmem : rel ∈ l.map Prod.fst)
    (p : String × α → Bool) (hp : ∀ e ∈ l, p e = (e.1 == rel)) :
    l.countP p = 1 := by
  rw [List.countP_congr (fun e he => by rw [hp e he])]
  have h1 : l.countP (fun e => e.1 == rel) =
      (l.map Prod.fst).countP (fun k => k == rel) := by
    rw [List.countP_map]
    rfl
  rw [h1, ← List.count_eq_countP]
  exact List.count_eq_one_of_mem hnd hmem

theorem countP_eq_zero_of_key {α : Type} (l : List (String × α))
    (rel : String) (habs : rel ∉ l.map Prod.fst)
    (p : String × α → Bool) (hp : ∀ e ∈ l, p e = (e.1 == rel)) :
    l.countP p = 0 := by
  rw [List.countP_eq_zero]
  intro e he
  rw [hp e he]
  simp only [beq_iff_eq]
  intro heq
  exact habs (heq ▸ List.mem_map.mpr ⟨e, he, rfl⟩)

theorem mem_keys_of_mem {α : Type} {l : List (String × α)}
    {k : String} {v : α} (h : (k, v) ∈ l) : k ∈ l.map Prod.fst :=
  List.mem_map.mpr ⟨(k, v), h, rfl⟩

/-! ## Helper lemmas: change detection -/

theorem joinPath_inj {dir r₁ r₂ : String}
    (h : joinPath dir r₁ = joinPath dir r₂) : r₁ = r₂ := by
  have h2 := congrArg String.data h
  simp only [joinPath, String.data_append] at h2
  exact String.ext (List.append_cancel_left h2)

theorem count_deleted_detect (watched current : Snapshot) (dir rel : String)
    (hw : (watched.map Prod.fst).Nodup)
    (hmem : rel ∈ watched.map Prod.fst)
    (habs : rel ∉ current.map Prod.fst) :
    ((detect_changes_dir watched current dir).map pathKind).count
      (joinPath dir rel, ChangeKind.deleted) = 1 := by
  rw [detect_changes_dir, List.map_append, List.count_append,
    List.map_filterMap, List.map_filterMap, List.count_filterMap,
    List.count_filterMap]
  have h1 : watched.countP (fun e =>
      (dirBaselineChange current dir e).map pathKind ==
        some (joinPath dir rel, ChangeKind.deleted)) = 1 := by
    apply countP_eq_one_of_key watched rel hw hmem
    intro e he
    obtain ⟨k, oH, oS⟩ := e
    by_cases hk : k = rel
    · subst hk
      have hcur : current.lookup k = none := (lookup_eq_none_iff _ _).mpr habs
      simp [dirBaselineChange, hcur, pathKind]
    · have hb : (k == rel) = false := by simp [hk]
      rw [hb]
      cases hcur : current.lookup k with
      | none =>
          simp only [dirBaselineChange, hcur, Option.map_some', pathKind]
          rw [beq_eq_false_iff_ne]
          intro hsome
          rw [Option.some.injEq, Prod.mk.injEq] at hsome
          exact hk (joinPath_inj hsome.1)
      | some pr =>
          obtain ⟨nH, nS⟩ := pr
          by_cases hdiff : oH ≠ nH
          · simp [dirBaselineChange, hcur, hdiff, pathKind]
          · simp [dirBaselineChange, hcur, hdiff]
  have h2 : current.countP (fun e =>
      (dirCreatedChange watched dir e).map pathKind ==
        some (joinPath dir rel, ChangeKind.deleted)) = 0 := by
    rw [List.countP_eq_zero]
    intro e he
    by_cases hw2 : (watched.lookup e.1).isSome
    · simp [dirCreatedChange, hw2]
    · simp [dirCreatedChange, hw2, pathKind]
  rw [h1, h2]

theorem count_modified_detect (watched current : Snapshot) (dir rel : String)
    (oH nH : Option String) (oS nS : Option Nat)
    (hw : (watched.map Prod.fst).Nodup)
    (hc : (current.map Prod.fst).Nodup)
    (hmw : (rel, (oH, oS)) ∈ watched)
    (hmc : (rel, (nH, nS)) ∈ current)
    (hdiff : oH ≠ nH) :
    ((detect_changes_dir watched current dir).map pathKind).count
      (joinPath dir rel, ChangeKind.modified) = 1 ∧
    ({ path := joinPath dir rel, type := ChangeKind.modified, oldHash := oH
       newHash := nH, oldSize := oS, newSize := nS } : Change) ∈
      detect_changes_dir watched current dir := by
  have hlc : current.lookup rel = some (nH, nS) := lookup_eq_some_of_mem hc hmc
  constructor
  · rw [detect_changes_dir, List.map_append, List.count_append,
      List.map_filterMap, List.map_filterMap, List.count_filterMap,
      List.count_filterMap]
    have h1 : watched.countP (fun e =>
        (dirBaselineChange current dir e).map pathKind ==
          some (joinPath dir rel, ChangeKind.modified)) = 1 := by
      apply countP_eq_one_of_key watched rel hw (mem_keys_of_mem hmw)
      intro e he
      obtain ⟨k, o, s⟩ := e
      by_cases hk : k = rel
      · subst hk
        have he2 : ((k, (o, s)) : String × (Option String × Option Nat)) =
            (k, (oH, oS)) := by
          have l1 := lookup_eq_some_of_mem hw (l := watched) he
          have l2 := lookup_eq_some_of_mem hw hmw
          rw [l1] at l2
          injection l2 with l2
          rw [l2]
        injection he2 with he2a he2b
        rw [he2b]
        simp [dirBaselineChange, hlc, hdiff, pathKind]
      · have hb : (k == rel) = false := by simp [hk]
        rw [hb]
        cases hcur : current.lookup k with
        | none => simp [dirBaselineChange, hcur, pathKind]
        | some pr =>
            obtain ⟨nH2, nS2⟩ := pr
            by_cases hd2 : o ≠ nH2
            · simp only [dirBaselineChange, hcur]
              rw [if_pos hd2]
              simp only [Option.map_some', pathKind]
              rw [beq_eq_false_iff_ne]
              intro hsome
              rw [Option.some.injEq, Prod.mk.injEq] at hsome
              exact hk (joinPath_inj hsome.1)
            · simp [dirBaselineChange, hcur, hd2]
    have h2 : current.countP (fun e =>
        (dirCreatedChange watched dir e).map pathKind ==
          some (joinPath dir rel, ChangeKind.modified)) = 0 := by
      rw [List.countP_eq_zero]
      intro e he
      by_cases hw2 : (watched.lookup e.1).isSome
      · simp [dirCreatedChange, hw2]
      · simp [dirCreatedChange, hw2, pathKind]
    rw [h1, h2]
  · rw [detect_changes_dir]
    apply List.mem_append_left
    apply List.mem_filterMap.mpr
    exact ⟨(rel, (oH, oS)), hmw, by simp [dirBaselineChange, hlc, hdiff]⟩

theorem count_created_detect (watched current : Snapshot) (dir rel : String)
    (nH : Option String) (nS : Option Nat)
    (hc : (current.map Prod.fst).Nodup)
    (hmc : (rel, (nH, nS)) ∈ current)
    (habs : rel ∉ watched.map Prod.fst) :
    ((detect_changes_dir watched current dir).map pathKind).count
      (joinPath dir rel, ChangeKind.created) = 1 ∧
    ({ path := joinPath dir rel, type := ChangeKind.created, oldHash := none
       newHash := nH, oldSize := none, newSize := nS } : Change) ∈
      detect_changes_dir watched current dir := by
  have hlw : watched.lookup rel = none := (lookup_eq_none_iff _ _).mpr habs
  constructor
  · rw [detect_changes_dir, List.map_append, List.count_append,
      List.map_filterMap, List.map_filterMap, List.count_filterMap,
      List.count_filterMap]
    have h1 : watched.countP (fun e =>
        (dirBaselineChange current dir e).map pathKind ==
          some (joinPath dir rel, ChangeKind.created)) = 0 := by
      rw [List.countP_eq_zero]
      intro e he
      cases hcur : current.lookup e.1 with
      | none => simp [dirBaselineChange, hcur, pathKind]
      | some pr =>
          obtain ⟨nH2, nS2⟩ := pr
          by_cases hd2 : e.2.1 ≠ nH2
          · simp [dirBaselineChange, hcur, hd2, pathKind]
          · simp [dirBaselineChange, hcur, hd2]
    have h2 : current.countP (fun e =>
        (dirCreatedChange watched dir e).map pathKind ==
          some (joinPath dir rel, ChangeKind.created)) = 1 := by
      apply countP_eq_one_of_key current rel hc (mem_keys_of_mem hmc)
      intro e he
      obtain ⟨k, nH2, nS2⟩ := e
      by_cases hk : k = rel
      · subst hk
        have he2 : ((k, (nH2, nS2)) : String × (Option String × Option Nat)) =
            (k, (nH, nS)) := by
          have l1 := lookup_eq_some_of_mem hc (l := current) he
          have l2 := lookup_eq_some_of_mem hc hmc
          rw [l1] at l2
          injection l2 with l2
          rw [l2]
        injection he2 with he2a he2b
        rw [he2b]
        have hws : (watched.lookup k).isSome = false := by
          rw [hlw]
          rfl
        simp [dirCreatedChange, hws, pathKind]
      · have hb : (k == rel) = false := by simp [hk]
        rw [hb]
        by_cases hw2 : (watched.lookup k).isSome
        · simp [dirCreatedChange, hw2]
        · rw [dirCreatedChange, if_neg hw2]
          simp only [Option.map_some', pathKind]
          rw [beq_eq_false_iff_ne]
          intro hsome
          rw [Option.some.injEq, Prod.mk.injEq] at hsome
          exact hk (joinPath_inj hsome.1)
    rw [h1, h2]
  · rw [detect_changes_dir]
    apply List.mem_append_right
    apply List.mem_filterMap.mpr
    refine ⟨(rel, (nH, nS)), hmc, ?_⟩
    have hws : (watched.lookup rel).isSome = false := by
      rw [hlw]
      rfl
    simp [dirCreatedChange, hws]

theorem detect_changes_dir_sound (watched current : Snapshot) (dir : String)
    (ch : Change) (hch : ch ∈ detect_changes_dir watched current dir) :
    (ch.type = ChangeKind.deleted → ∃ rel ∈ watched.map Prod.fst,
      ch.path = joinPath dir rel ∧ rel ∉ current.map Prod.fst) ∧
    (ch.type = ChangeKind.modified → ∃ rel ∈ watched.map Prod.fst,
      ch.path = joinPath dir rel ∧ rel ∈ current.map Prod.fst ∧
        ch.oldHash ≠ ch.newHash) ∧
    (ch.type = ChangeKind.created → ∃ rel ∈ current.map Prod.fst,
      ch.path = joinPath dir rel ∧ rel ∉ watched.map Prod.fst) := by
  rw [detect_changes_dir] at hch
  rcases List.mem_append.mp hch with hm | hm
  · obtain ⟨e, he, hfe⟩ := List.mem_filterMap.mp hm
    obtain ⟨k, o, s⟩ := e
    cases hcur : current.lookup k with
    | none =>
        simp only [dirBaselineChange, hcur] at hfe
        injection hfe with hfe
        subst hfe
        refine ⟨fun _ => ⟨k, mem_keys_of_mem he, rfl,
            (lookup_eq_none_iff _ _).mp hcur⟩,
          fun h => by simp at h, fun h => by simp at h⟩
    | some pr =>
        obtain ⟨nH2, nS2⟩ := pr
        simp only [dirBaselineChange, hcur] at hfe
        by_cases hd2 : o ≠ nH2
        · rw [if_pos hd2] at hfe
          injection hfe with hfe
          subst hfe
          refine ⟨fun h => by simp at h,
            fun _ => ⟨k, mem_keys_of_mem he, rfl,
              (lookup_isSome_iff _ _).mp (by rw [hcur]; rfl), hd2⟩,
            fun h => by simp at h⟩
        · rw [if_neg hd2] at hfe
          exact absurd hfe (by simp)
  · obtain ⟨e, he, hfe⟩ := List.mem_filterMap.mp hm
    obtain ⟨k, nH2, nS2⟩ := e
    by_cases hw2 : (watched.lookup k).isSome
    · rw [dirCreatedChange, if_pos hw2] at hfe
      exact absurd hfe (by simp)
    · rw [dirCreatedChange, if_neg hw2] at hfe
      injection hfe with hfe
      subst hfe
      refine ⟨fun h => by simp at h, fun h => by simp at h,
        fun _ => ⟨k, mem_keys_of_mem he, rfl, ?_⟩⟩
      intro hmemw
      exact hw2 ((lookup_isSome_iff _ _).mpr hmemw)

/-! ## C6 -/

/-- C6: in directory mode, for every baseline and live snapshot (with
dict-unique keys), detect_changes emits exactly one 'deleted' entry per
baseline path absent from the live snapshot, exactly one 'modified' entry
(with both sizes recorded) per baseline path present with a different
digest, exactly one 'created' entry per live path absent from the baseline,
and nothing else: every emitted entry is of one of those three forms. -/
theorem detect_changes_dir_classification (watched current : Snapshot)
    (dir : String)
    (hw : (watched.map Prod.fst).Nodup)
    (hc : (current.map Prod.fst).Nodup) :
    (∀ rel ∈ watched.map Prod.fst, rel ∉ current.map Prod.fst →
      ((detect_changes_dir watched current dir).map pathKind).count
        (joinPath dir rel, ChangeKind.deleted) = 1) ∧
    (∀ rel oH nH oS nS, (rel, (oH, oS)) ∈ watched →
      (rel, (nH, nS)) ∈ current → oH ≠ nH →
      ((detect_changes_dir watched current dir).map pathKind).count
        (joinPath dir rel, ChangeKind.modified) = 1 ∧
      ({ path := joinPath dir rel, type := ChangeKind.modified
         oldHash := oH, newHash := nH, oldSize := oS
         newSize := nS } : Change) ∈ detect_changes_dir watched current dir) ∧
    (∀ rel nH nS, (rel, (nH, nS)) ∈ current →
      rel ∉ watched.map Prod.fst →
      ((detect_changes_dir watched current dir).map pathKind).count
        (joinPath dir rel, ChangeKind.created) = 1 ∧
      ({ path := joinPath dir rel, type := ChangeKind.created
         oldHash := none, newHash := nH, oldSize := none
         newSize := nS } : Change) ∈ detect_changes_dir watched current dir) ∧
    (∀ ch ∈ detect_changes_dir watched current dir,
      (ch.type = ChangeKind.deleted → ∃ rel ∈ watched.map Prod.fst,
        ch.path = joinPath dir rel ∧ rel ∉ current.map Prod.fst) ∧
      (ch.type = ChangeKind.modified → ∃ rel ∈ watched.map Prod.fst,
        ch.path = joinPath dir rel ∧ rel ∈ current.map Prod.fst ∧
          ch.oldHash ≠ ch.newHash) ∧
      (ch.type = ChangeKind.created → ∃ rel ∈ current.map Prod.fst,
        ch.path = joinPath dir rel ∧ rel ∉ watched.map Prod.fst)) := by
  refine ⟨?_, ?_, ?_, ?_⟩
  · intro rel hm ha
    exact count_deleted_detect watched current dir rel hw hm ha
  · intro rel oH nH oS nS h1 h2 h3
    exact count_modified_detect watched current dir rel oH nH oS nS hw hc
      h1 h2 h3
  · intro rel nH nS h1 h2
    exact count_created_detect watched current dir rel nH nS hc h1 h2
  · intro ch hch
    exact detect_changes_dir_sound watched current dir ch hch

/-- C6 witness: with baseline `{a}` deleted and `b` newly created, the diff
is exactly one deleted(a) entry and one created(b) entry and nothing else —
the two events are never conflated. -/
theorem detect_changes_dir_classification_witness :
    ((detect_changes_dir [("a", (some "h1", some 1))]
        [("b", (some "h2", some 2))] "d").map pathKind).count
      (joinPath "d" "a", ChangeKind.deleted) = 1 ∧
    ((detect_changes_dir [("a", (some "h1", some 1))]
        [("b", (some "h2", some 2))] "d").map pathKind).count
      (joinPath "d" "b", ChangeKind.created) = 1 ∧
    (detect_changes_dir [("a", (some "h1", some 1))]
        [("b", (some "h2", some 2))] "d").length = 2 := by
  have h := detect_changes_dir_classification
    [("a", (some "h1", some 1))] [("b", (some "h2", some 2))] "d"
    (by decide) (by decide)
  exact ⟨h.1 "a" (by decide) (by decide),
    (h.2.2.1 "b" (some "h2") (some 2) (by decide) (by decide)).1,
    by decide⟩

end TerminalRewind
